import Mathlib

/-!
Verification of the `ladonsqlmanager` policy store.

This file shallowly embeds the Go sources of the repository: the template
sanitizer and entity builder (`entity_builder.go`), the content-addressed
entity identifiers (SHA-256, as in `crypto/sha256` per FIPS 180-4), the
GORM-backed write path and query path of the SQL manager
(`processPolicyItems`, `create`, `Update`, `Delete`, `Get`,
`FindPoliciesForResource`), the data model (`models/`), and the stale
statement-based manager kept in `ladonmanager.go`.  Strings are modelled as
`List Char`; Go byte strings as `List Nat` via UTF-8.  Theorems at the end
settle the specification claims against these definitions.
-/

namespace LadonSql

/-- Character-list form of a Lean string literal; Go strings are modelled
as `List Char` throughout. -/
def str (s : String) : List Char := s.data

/-- Truncation to a 32-bit word, as Go `uint32` arithmetic. -/
def w32 (n : Nat) : Nat := n % 4294967296

/-- 32-bit right rotation. -/
def rotr (n x : Nat) : Nat := w32 ((x >>> n) ||| (x <<< (32 - n)))

/-- SHA-256 big sigma-0 function (FIPS 180-4). -/
def bsig0 (x : Nat) : Nat := rotr 2 x ^^^ rotr 13 x ^^^ rotr 22 x

/-- SHA-256 big sigma-1 function. -/
def bsig1 (x : Nat) : Nat := rotr 6 x ^^^ rotr 11 x ^^^ rotr 25 x

/-- SHA-256 small sigma-0 function. -/
def ssig0 (x : Nat) : Nat := rotr 7 x ^^^ rotr 18 x ^^^ (x >>> 3)

/-- SHA-256 small sigma-1 function. -/
def ssig1 (x : Nat) : Nat := rotr 17 x ^^^ rotr 19 x ^^^ (x >>> 10)

/-- SHA-256 choose function; 32-bit complement written as xor with the
all-ones word. -/
def chf (x y z : Nat) : Nat := (x &&& y) ^^^ ((x ^^^ 4294967295) &&& z)

/-- SHA-256 majority function. -/
def majf (x y z : Nat) : Nat := (x &&& y) ^^^ (x &&& z) ^^^ (y &&& z)

/-- The 64 SHA-256 round constants (FIPS 180-4, written in decimal). -/
def sha256K : List Nat :=
  [1116352408, 1899447441, 3049323471, 3921009573,
   961987163, 1508970993, 2453635748, 2870763221,
   3624381080, 310598401, 607225278, 1426881987,
   1925078388, 2162078206, 2614888103, 3248222580,
   3835390401, 4022224774, 264347078, 604807628,
   770255983, 1249150122, 1555081692, 1996064986,
   2554220882, 2821834349, 2952996808, 3210313671,
   3336571891, 3584528711, 113926993, 338241895,
   666307205, 773529912, 1294757372, 1396182291,
   1695183700, 1986661051, 2177026350, 2456956037,
   2730485921, 2820302411, 3259730800, 3345764771,
   3516065817, 3600352804, 4094571909, 275423344,
   430227734, 506948616, 659060556, 883997877,
   958139571, 1322822218, 1537002063, 1747873779,
   1955562222, 2024104815, 2227730452, 2361852424,
   2428436474, 2756734187, 3204031479, 3329325298]

/-- The SHA-256 initial hash value (decimal). -/
def sha256H0 : List Nat :=
  [1779033703, 3144134277, 1013904242, 2773480762,
   1359893119, 2600822924, 528734635, 1541459225]

/-- Big-endian 4-byte grouping of a byte list into 32-bit words. -/
def bytesToWords : List Nat → List Nat
  | b0 :: b1 :: b2 :: b3 :: rest =>
    (((b0 * 256 + b1) * 256 + b2) * 256 + b3) :: bytesToWords rest
  | _ => []

/-- Big-endian bytes of a 32-bit word. -/
def wordBytes (w : Nat) : List Nat :=
  [(w >>> 24) % 256, (w >>> 16) % 256, (w >>> 8) % 256, w % 256]

/-- Big-endian 8-byte encoding of the message bit length. -/
def lenBytes64 (n : Nat) : List Nat :=
  [(n >>> 56) % 256, (n >>> 48) % 256, (n >>> 40) % 256, (n >>> 32) % 256,
   (n >>> 24) % 256, (n >>> 16) % 256, (n >>> 8) % 256, n % 256]

/-- SHA-256 message padding: a 0x80 byte, zeros to 56 mod 64, then the
bit length. -/
def padMessage (m : List Nat) : List Nat :=
  m ++ 128 :: List.replicate ((119 - m.length % 64) % 64) 0
    ++ lenBytes64 (m.length * 8)

/-- Split a byte list into 64-byte blocks (fueled recursion). -/
def chunk64F : Nat → List Nat → List (List Nat)
  | 0, _ => []
  | _, [] => []
  | n + 1, m => m.take 64 :: chunk64F n (m.drop 64)

/-- Split a padded message into its 64-byte blocks. -/
def chunk64 (m : List Nat) : List (List Nat) := chunk64F m.length m

/-- The 64-entry SHA-256 message schedule of one block. -/
def sched (m : List Nat) : List Nat :=
  (List.range 64).foldl
    (fun w t =>
      if t < 16 then w ++ [m.getD t 0]
      else
        w ++ [w32 (ssig1 (w.getD (t - 2) 0) + w.getD (t - 7) 0
          + ssig0 (w.getD (t - 15) 0) + w.getD (t - 16) 0)])
    []

/-- One SHA-256 round on the eight working registers. -/
def shaRound (w : List Nat) (r : List Nat) (t : Nat) : List Nat :=
  match r with
  | [a, b, c, d, e, f, g, h] =>
    let t1 := w32 (h + bsig1 e + chf e f g + sha256K.getD t 0 + w.getD t 0)
    let t2 := w32 (bsig0 a + majf a b c)
    [w32 (t1 + t2), a, b, c, w32 (d + t1), e, f, g]
  | other => other

/-- SHA-256 compression of one 64-byte block into the running hash. -/
def compress (h : List Nat) (block : List Nat) : List Nat :=
  let w := sched (bytesToWords block)
  let r := (List.range 64).foldl (shaRound w) h
  (h.zip r).map (fun p => w32 (p.1 + p.2))

/-- SHA-256 digest (32 bytes) of a byte list. -/
def sha256Bytes (m : List Nat) : List Nat :=
  ((chunk64 (padMessage m)).foldl compress sha256H0).foldr
    (fun w acc => wordBytes w ++ acc) []

/-- Lowercase hex digit. -/
def hexDigit (n : Nat) : Char :=
  if n < 10 then Char.ofNat (48 + n) else Char.ofNat (87 + n)

/-- Two lowercase hex digits of a byte, as in Go `fmt.Sprintf("%x", ...)`. -/
def byteHex (b : Nat) : List Char := [hexDigit (b / 16), hexDigit (b % 16)]

/-- Lowercase hex string of a byte list. -/
def hexString (bs : List Nat) : List Char :=
  bs.foldr (fun b acc => byteHex b ++ acc) []

/-- UTF-8 encoding of one character, as Go `[]byte(string)`. -/
def utf8Char (c : Char) : List Nat :=
  let n := c.toNat
  if n < 128 then [n]
  else if n < 2048 then [192 ||| (n >>> 6), 128 ||| (n &&& 63)]
  else if n < 65536 then
    [224 ||| (n >>> 12), 128 ||| ((n >>> 6) &&& 63), 128 ||| (n &&& 63)]
  else
    [240 ||| (n >>> 18), 128 ||| ((n >>> 12) &&& 63),
     128 ||| ((n >>> 6) &&& 63), 128 ||| (n &&& 63)]

/-- UTF-8 bytes of a string, as Go `[]byte(s)`. -/
def utf8Bytes (s : List Char) : List Nat :=
  s.foldr (fun c acc => utf8Char c ++ acc) []

/-- Go `len(s)` on a string: the UTF-8 byte length. -/
def goLen (s : List Char) : Nat := (utf8Bytes s).length

/-- Entity identifier derivation, `entity_builder.go` `GenerateID` and the
inline hash of `processPolicyItems`: `fmt.Sprintf("%x", sha256(template))`. -/
def generateID (template : List Char) : List Char :=
  hexString (sha256Bytes (utf8Bytes template))

/-- Go `unicode.IsSpace` on the characters relevant here (ASCII whitespace
plus NEL and NBSP; wider Unicode space classes are not exercised by the
repository). -/
def goIsSpace (c : Char) : Bool :=
  c = ' ' || c = '\t' || c = '\n' || c = Char.ofNat 11 || c = Char.ofNat 12
    || c = '\r' || c = Char.ofNat 133 || c = Char.ofNat 160

/-- Go `strings.TrimSpace`. -/
def goTrimSpace (s : List Char) : List Char :=
  ((s.dropWhile goIsSpace).reverse.dropWhile goIsSpace).reverse

/-- `sanitizeTemplate` from the manager: `strings.TrimSpace(template)`. -/
def sanitizeTemplate (t : List Char) : List Char := goTrimSpace t

/-- Go `strings.Index(s, string(c))` for a one-character needle: first
index or -1. -/
def goIndexChar : List Char → Char → Int
  | [], _ => -1
  | c :: rest, d =>
    if c = d then 0
    else if goIndexChar rest d < 0 then -1 else goIndexChar rest d + 1

/-- The `HasRegex` flag computed by `entity_builder.go` (line 91) and by the
GORM manager's `processPolicyItems`:
`strings.Index(template, string(startDelim)) >= 0`. -/
def hasRegexOf (t : List Char) (sd : Char) : Bool := decide (0 ≤ goIndexChar t sd)

/-- The `has_regex` value bound by the stale statement-based write path
(`ladonmanager.go` lines 138/145/152):
`strings.Index(template, string(policy.GetStartDelimiter())) >= -1`. -/
def legacyHasRegexValue (t : List Char) (sd : Char) : Bool :=
  decide (-1 ≤ goIndexChar t sd)

/-- Syntax of the regular expressions produced by template compilation. -/
inductive Rx
  | fail
  | eps
  | lit (c : Char)
  | dot
  | alt (a b : Rx)
  | cat (a b : Rx)
  | star (a : Rx)
deriving DecidableEq

/-- Whether a regular expression accepts the empty string. -/
def nullable : Rx → Bool
  | .fail => false
  | .eps => true
  | .lit _ => false
  | .dot => false
  | .alt a b => nullable a || nullable b
  | .cat a b => nullable a && nullable b
  | .star _ => true

/-- Brzozowski derivative of a regular expression by a character. -/
def deriv : Rx → Char → Rx
  | .fail, _ => .fail
  | .eps, _ => .fail
  | .lit c, x => if x = c then .eps else .fail
  | .dot, _ => .eps
  | .alt a b, x => .alt (deriv a x) (deriv b x)
  | .cat a b, x =>
    if nullable a then .alt (.cat (deriv a x) b) (deriv b x)
    else .cat (deriv a x) b
  | .star a, x => .cat (deriv a x) (.star a)

/-- Whether a regular expression matches the whole string
(derivative matching). -/
def rmatch (r : Rx) (s : List Char) : Bool := nullable (s.foldl deriv r)

/-- A compiled matching expression as stored in the `compiled` column: a
regex body together with the `^` and `$` anchors of the pattern string. -/
structure CompiledPat where
  anchorStart : Bool
  body : Rx
  anchorEnd : Bool
deriving DecidableEq

/-- One candidate occurrence of a compiled pattern inside `v`, at offset `i`
with length `len`, honoring the anchors: `^` forces the occurrence to start
at offset 0, `$` forces it to end at the end of `v`. -/
def sliceMatch (p : CompiledPat) (v : List Char) (i len : Nat) : Bool :=
  (!p.anchorStart || i == 0) && (!p.anchorEnd || i + len == v.length)
    && rmatch p.body ((v.drop i).take len)

/-- The storage engine's regex operator (PostgreSQL `~`, MySQL
`REGEXP BINARY`): true iff the pattern matches somewhere inside the
candidate string, honoring anchors. -/
def tildeMatch (p : CompiledPat) (v : List Char) : Bool :=
  (List.range (v.length + 1)).any fun i =>
    (List.range (v.length + 1 - i)).any fun len => sliceMatch p v i len

/-- A pattern anchored at both ends matches inside `v` iff its body matches
all of `v`: anchored patterns never match a proper substring. -/
theorem tildeMatch_anchored (r : Rx) (v : List Char) :
    tildeMatch ⟨true, r, true⟩ v = rmatch r v := by
  have hslice : ∀ i len, sliceMatch ⟨true, r, true⟩ v i len = true ↔
      i = 0 ∧ i + len = v.length ∧ rmatch r (List.take len (List.drop i v)) = true := by
    intro i len
    simp [sliceMatch, and_assoc]
  cases hb : rmatch r v with
  | true =>
    have hex : ∃ i ∈ List.range (v.length + 1), ∃ len ∈ List.range (v.length + 1 - i),
        sliceMatch ⟨true, r, true⟩ v i len = true := by
      refine ⟨0, by simp, v.length, by simp, ?_⟩
      rw [hslice]
      exact ⟨rfl, by simp, by simpa using hb⟩
    simpa [tildeMatch, List.any_eq_true] using hex
  | false =>
    simp only [tildeMatch]
    rw [List.any_eq_false]
    intro i _
    rw [List.any_eq_true]
    rintro ⟨len, _, hm⟩
    rw [hslice] at hm
    obtain ⟨rfl, hlen2, hm⟩ := hm
    rw [Nat.zero_add] at hlen2
    subst hlen2
    rw [List.drop_zero, List.take_length] at hm
    exact absurd hm (by simp [hb])

/-- Scan for the end of a delimited segment, tracking nesting depth, as
`delimiterIndices` in the external `ory/ladon` compiler does; returns the
segment body and the remainder after the closing delimiter. -/
def findSegEnd : List Char → Char → Char → Nat → Option (List Char × List Char)
  | [], _, _, _ => none
  | c :: rest, sd, ed, lvl =>
    if c = ed then
      if lvl = 0 then some ([], rest)
      else
        match findSegEnd rest sd ed (lvl - 1) with
        | none => none
        | some (inn, r) => some (c :: inn, r)
    else if c = sd then
      match findSegEnd rest sd ed (lvl + 1) with
      | none => none
      | some (inn, r) => some (c :: inn, r)
    else
      match findSegEnd rest sd ed lvl with
      | none => none
      | some (inn, r) => some (c :: inn, r)

/-- Split a template into literal chunks (`inl`) and delimiter-bounded
pattern segments (`inr`); `none` on unbalanced delimiters.  Fueled scan. -/
def splitF : Nat → List Char → Char → Char → List Char →
    Option (List (Sum (List Char) (List Char)))
  | 0, _, _, _, _ => none
  | _ + 1, [], _, _, acc => some (if acc = [] then [] else [.inl acc.reverse])
  | n + 1, c :: rest, sd, ed, acc =>
    if c = sd then
      match findSegEnd rest sd ed 0 with
      | none => none
      | some (inner, after) =>
        match splitF n after sd ed [] with
        | none => none
        | some segs =>
          some ((if acc = [] then [] else [.inl acc.reverse]) ++ .inr inner :: segs)
    else if c = ed then none
    else splitF n rest sd ed (c :: acc)

/-- Split a template at its delimiters (unbalanced delimiters give `none`). -/
def splitTemplate (t : List Char) (sd ed : Char) :
    Option (List (Sum (List Char) (List Char))) :=
  splitF (t.length + 1) t sd ed []

/-- Consume trailing `*`, `+`, `?` operators after an atom. -/
def pStars : Rx → List Char → Rx × List Char
  | r, '*' :: s => pStars (.star r) s
  | r, '+' :: s => pStars (.cat r (.star r)) s
  | r, '?' :: s => pStars (.alt .eps r) s
  | r, s => (r, s)

mutual

/-- Fueled recursive-descent reading of an alternation. -/
def pAlt : Nat → List Char → Option (Rx × List Char)
  | 0, _ => none
  | n + 1, s =>
    match pCat n s with
    | none => none
    | some (r, s1) =>
      match s1 with
      | '|' :: s2 =>
        match pAlt n s2 with
        | none => none
        | some (r2, s3) => some (.alt r r2, s3)
      | _ => some (r, s1)

/-- Fueled recursive-descent reading of a concatenation. -/
def pCat : Nat → List Char → Option (Rx × List Char)
  | 0, _ => none
  | n + 1, s =>
    match s with
    | [] => some (.eps, [])
    | ')' :: _ => some (.eps, s)
    | '|' :: _ => some (.eps, s)
    | _ =>
      match pPost n s with
      | none => none
      | some (r, s1) =>
        match pCat n s1 with
        | none => none
        | some (r2, s2) => some (.cat r r2, s2)

/-- Fueled reading of an atom with its postfix operators. -/
def pPost : Nat → List Char → Option (Rx × List Char)
  | 0, _ => none
  | n + 1, s =>
    match pAtom n s with
    | none => none
    | some (a, s1) => some (pStars a s1)

/-- Fueled reading of one atom. -/
def pAtom : Nat → List Char → Option (Rx × List Char)
  | 0, _ => none
  | n + 1, s =>
    match s with
    | [] => none
    | '(' :: s1 =>
      match pAlt n s1 with
      | none => none
      | some (r, s2) =>
        match s2 with
        | ')' :: s3 => some (r, s3)
        | _ => none
    | '.' :: s1 => some (.dot, s1)
    | '*' :: _ => none
    | '+' :: _ => none
    | '?' :: _ => none
    | '|' :: _ => none
    | ')' :: _ => none
    | '\\' :: c :: s1 => some (.lit c, s1)
    | c :: s1 => some (.lit c, s1)

end

/-- Read a whole delimited segment as a regex fragment. -/
def parseFrag (s : List Char) : Option Rx :=
  match pAlt (4 * (s.length + 1)) s with
  | some (r, []) => some r
  | _ => none

/-- A literal chunk matched verbatim (the semantic counterpart of
`regexp.QuoteMeta`). -/
def litChunk (cs : List Char) : Rx :=
  cs.foldr (fun c r => .cat (.lit c) r) .eps

/-- Assemble the split segments into the body of the compiled expression. -/
def compileSegs : List (Sum (List Char) (List Char)) → Option Rx
  | [] => some .eps
  | .inl l :: rest => (compileSegs rest).map (.cat (litChunk l))
  | .inr pat :: rest =>
    match parseFrag pat with
    | none => none
    | some r => (compileSegs rest).map (.cat r)

/-- Template-compilation errors. -/
inductive CompileErr
  | unbalanced
  | badPattern
deriving DecidableEq

/-- Modelled from the spec: `compiler.CompileRegex` of the external
`ory/ladon` dependency (not under the repository sources).  Per §4.1 the
template is split at the delimiters, literal chunks are taken verbatim
(`QuoteMeta`), each delimited segment is a regular-expression fragment,
and the resulting expression is anchored at both ends (`^...$`), so a
pattern is never allowed to match a substring.  Unbalanced delimiters or an
invalid inner expression fail compilation. -/
def compileRegex (t : List Char) (sd ed : Char) : Except CompileErr CompiledPat :=
  match splitTemplate t sd ed with
  | none => .error .unbalanced
  | some segs =>
    match compileSegs segs with
    | none => .error .badPattern
    | some body => .ok ⟨true, body, true⟩

/-- Every successfully compiled expression is anchored at both ends. -/
theorem compileRegex_anchored (t : List Char) (sd ed : Char) (c : CompiledPat)
    (h : compileRegex t sd ed = .ok c) :
    c.anchorStart = true ∧ c.anchorEnd = true := by
  unfold compileRegex at h
  split at h
  · exact absurd h (by simp)
  · split at h
    · exact absurd h (by simp)
    · cases h
      exact ⟨rfl, rfl⟩

/-- One pattern-entity row (`models.BaseEntity`, embedded by `Subject`,
`Action` and `Resource`): content-hash id, sanitized raw template, compiled
expression and the pattern-classification flag.  The `compiled` column is
carried in its semantic form.  Timestamps are not modelled; entities carry
a soft-delete column but no code path ever deletes them. -/
structure EntityRow where
  id : List Char
  template : List Char
  compiled : CompiledPat
  hasRegex : Bool
deriving DecidableEq

/-- Validation errors and storage-level errors surfaced by the manager. -/
inductive GoErr
  | emptyPolicyID
  | policyIDTooLong
  | emptyDescription
  | invalidEffect
  | compileError
  | duplicateKey
  | notFound
  | invalidDriver
deriving DecidableEq

/-- Builder errors of `entity_builder.go`. -/
inductive BuildErr
  | emptyTemplate
  | templateUnset
  | compileFailed
  | customIDEmpty
  | templateRequired
  | idRequired
  | compiledRequired
  | invalidEntity
deriving DecidableEq

/-- `models.BaseEntity.Validate`: non-empty id within 64 bytes and
non-empty template within 511 bytes.  The length bound on the rendered
`compiled` string (511 bytes) is not modelled, since the compiled
expression is carried as an AST; its non-emptiness always holds because an
anchored pattern string starts with `^`. -/
def entityValidate (e : EntityRow) : Bool :=
  !e.id.isEmpty && decide (goLen e.id ≤ 64)
    && !e.template.isEmpty && decide (goLen e.template ≤ 511)

/-- The state of `EntityBuilder` (`entity_builder.go`): accumulated fields
plus a sticky error. -/
structure EBuilder where
  template : List Char
  startDelim : Char
  endDelim : Char
  id : List Char
  compiled : Option CompiledPat
  hasRegex : Bool
  err : Option BuildErr

/-- `NewEntityBuilder` / `Reset`: the empty builder state. -/
def newEntityBuilder : EBuilder :=
  ⟨[], Char.ofNat 0, Char.ofNat 0, [], none, false, none⟩

/-- `WithTemplate`: sanitize, then record an error if the result is empty. -/
def withTemplate (b : EBuilder) (t : List Char) : EBuilder :=
  if b.err ≠ none then b
  else
    let b1 := { b with template := sanitizeTemplate t }
    if b1.template = [] then { b1 with err := some .emptyTemplate } else b1

/-- `WithDelimiters`. -/
def withDelimiters (b : EBuilder) (sd ed : Char) : EBuilder :=
  if b.err ≠ none then b else { b with startDelim := sd, endDelim := ed }

/-- `GenerateID`: SHA-256 hex of the (sanitized) template. -/
def generateIDStep (b : EBuilder) : EBuilder :=
  if b.err ≠ none then b
  else if b.template = [] then { b with err := some .templateUnset }
  else { b with id := generateID b.template }

/-- `CompileTemplate`: compile the template and classify it by the presence
of the start delimiter. -/
def compileTemplateStep (b : EBuilder) : EBuilder :=
  if b.err ≠ none then b
  else if b.template = [] then { b with err := some .templateUnset }
  else
    match compileRegex b.template b.startDelim b.endDelim with
    | .error _ => { b with err := some .compileFailed }
    | .ok c =>
      { b with compiled := some c, hasRegex := hasRegexOf b.template b.startDelim }

/-- `Build`: surface the sticky error, check required fields, validate. -/
def build (b : EBuilder) : Except BuildErr EntityRow :=
  match b.err with
  | some e => .error e
  | none =>
    if b.template = [] then .error .templateRequired
    else if b.id = [] then .error .idRequired
    else
      match b.compiled with
      | none => .error .compiledRequired
      | some c =>
        let e : EntityRow := ⟨b.id, b.template, c, b.hasRegex⟩
        if entityValidate e then .ok e else .error .invalidEntity

/-- `EntityBuilderDirector.BuildStandardEntity`: the standard pipeline
template → delimiters → id → compile → build. -/
def buildStandardEntity (t : List Char) (sd ed : Char) : Except BuildErr EntityRow :=
  build (compileTemplateStep (generateIDStep (withDelimiters (withTemplate newEntityBuilder t) sd ed)))

/-- A policy row (`models.Policy`): identifier, description, effect, the
marshalled conditions and metadata JSON texts, and the GORM soft-delete
mark (`deleted_at` modelled as a flag). -/
structure PolicyRow where
  id : List Char
  description : List Char
  effect : List Char
  conditions : List Char
  meta : List Char
  deleted : Bool
deriving DecidableEq

/-- A policy↔entity relation row: the (policy id, entity id) pair.  The
three join tables have this same shape. -/
structure RelRow where
  policy : List Char
  entity : List Char
deriving DecidableEq

/-- The stored state: the policy table, the three entity tables and the
three join tables. -/
structure DBState where
  policies : List PolicyRow
  subjects : List EntityRow
  actions : List EntityRow
  resources : List EntityRow
  subjectRels : List RelRow
  actionRels : List RelRow
  resourceRels : List RelRow
deriving DecidableEq

/-- The empty store. -/
def emptyDB : DBState := ⟨[], [], [], [], [], [], []⟩

/-- A `ladon.Policy` as submitted to the write path: identifier,
description, effect, the three template lists, the marshalled conditions
(defaulted to `{}` by `create` when absent), metadata, and the template
delimiters. -/
structure LadonPolicy where
  id : List Char
  description : List Char
  effect : List Char
  subjects : List (List Char)
  actions : List (List Char)
  resources : List (List Char)
  conditions : List Char
  meta : List Char
  startDelim : Char
  endDelim : Char

/-- The policy returned by the read path (`convertPolicyToLadon`): the
row's scalar columns plus the template lists recovered through the join
tables. -/
structure LadonPolicyOut where
  id : List Char
  description : List Char
  effect : List Char
  subjects : List (List Char)
  actions : List (List Char)
  resources : List (List Char)
  conditions : List Char
  meta : List Char
deriving DecidableEq

/-- `models.Policy.Validate`: non-empty id within 255 bytes, non-empty
description, effect one of `allow`/`deny`.  The conditions payload is
always a present JSON text in this model, so its nil-check passes. -/
def policyValidate (p : PolicyRow) : Option GoErr :=
  if p.id = [] then some .emptyPolicyID
  else if 255 < goLen p.id then some .policyIDTooLong
  else if p.description = [] then some .emptyDescription
  else if p.effect ≠ str "allow" ∧ p.effect ≠ str "deny" then some .invalidEffect
  else none

/-- GORM `tx.Where("id = ?", id).FirstOrCreate(item)` on an entity table:
keep the table if a row with the id exists, otherwise append the row. -/
def firstOrCreateEntity (tab : List EntityRow) (row : EntityRow) : List EntityRow :=
  if tab.any (fun e => decide (e.id = row.id)) then tab else tab ++ [row]

/-- The entity loop of `processPolicyItems`: sanitize each template,
silently skip the ones that are empty after sanitization, hash, compile
(aborting the write on compilation failure), classify, get-or-create the
entity row, and collect the relation row for the batch phase. -/
def entityPhase (sd ed : Char) (pid : List Char) :
    List (List Char) → List EntityRow → Except GoErr (List EntityRow × List RelRow)
  | [], tab => .ok (tab, [])
  | t :: rest, tab =>
    let t1 := sanitizeTemplate t
    if t1 = [] then entityPhase sd ed pid rest tab
    else
      match compileRegex t1 sd ed with
      | .error _ => .error .compileError
      | .ok c =>
        let eid := generateID t1
        let tab1 := firstOrCreateEntity tab ⟨eid, t1, c, hasRegexOf t1 sd⟩
        match entityPhase sd ed pid rest tab1 with
        | .error e => .error e
        | .ok (tabF, rels) => .ok (tabF, ⟨pid, eid⟩ :: rels)

/-- The relation batch phase of `processPolicyItems`
(`createPolicyRelationOptimized`): get-or-create each collected relation
row by its (policy, entity) pair. -/
def relPhase (newRels : List RelRow) (rt : List RelRow) : List RelRow :=
  newRels.foldl
    (fun acc r =>
      if acc.any (fun x => decide (x.policy = r.policy) && decide (x.entity = r.entity))
      then acc else acc ++ [r])
    rt

/-- `processPolicyItems` for one entity kind, acting on that kind's entity
table and join table. -/
def processPolicyItems (items : List (List Char)) (pid : List Char) (sd ed : Char)
    (tab : List EntityRow) (rt : List RelRow) :
    Except GoErr (List EntityRow × List RelRow) :=
  match entityPhase sd ed pid items tab with
  | .error e => .error e
  | .ok (tab1, newRels) => .ok (tab1, relPhase newRels rt)

/-- The policy row inserted by `create`. -/
def mkPolicyRow (p : LadonPolicy) : PolicyRow :=
  ⟨p.id, p.description, p.effect, p.conditions, p.meta, false⟩

/-- `create` (GORM manager): id validation, `Policy.Validate`, the
`tx.Create` insert (a duplicate primary key — present even as a
soft-deleted row — is a storage error), then `processPolicyRelations` over
subjects, actions and resources.  The transaction wrapper makes an error
leave the caller's state unchanged. -/
def create (p : LadonPolicy) (st : DBState) : Except GoErr DBState :=
  if p.id = [] then .error .emptyPolicyID
  else if 255 < goLen p.id then .error .policyIDTooLong
  else
    match policyValidate (mkPolicyRow p) with
    | some e => .error e
    | none =>
      if st.policies.any (fun q => decide (q.id = p.id)) then .error .duplicateKey
      else
        match processPolicyItems p.subjects p.id p.startDelim p.endDelim
            st.subjects st.subjectRels with
        | .error e => .error e
        | .ok (subs, srels) =>
          match processPolicyItems p.actions p.id p.startDelim p.endDelim
              st.actions st.actionRels with
          | .error e => .error e
          | .ok (acts, arels) =>
            match processPolicyItems p.resources p.id p.startDelim p.endDelim
                st.resources st.resourceRels with
            | .error e => .error e
            | .ok (ress, rrels) =>
              .ok ⟨st.policies ++ [mkPolicyRow p], subs, acts, ress, srels, arels, rrels⟩

/-- `delete` (GORM manager): `tx.Delete(&models.Policy{}, "id = ?", id)`.
`models.Policy` embeds `gorm.DeletedAt`, so this is a soft delete: the row
is marked, not removed, and the `ON DELETE CASCADE` constraints of the
join tables are never triggered. -/
def deletePolicy (id : List Char) (st : DBState) : DBState :=
  { st with policies :=
      st.policies.map (fun q => if q.id = id then { q with deleted := true } else q) }

/-- `Update`: one transaction running `delete` then `create`. -/
def update (p : LadonPolicy) (st : DBState) : Except GoErr DBState :=
  create p (deletePolicy p.id st)

/-- Result of a committed transaction: the new state on success, the
caller's unchanged state after a rollback. -/
def okOr (d : DBState) (r : Except GoErr DBState) : DBState :=
  match r with
  | .ok s => s
  | .error _ => d

/-- Extract the policy of a successful read. -/
def okOrP (d : LadonPolicyOut) (r : Except GoErr LadonPolicyOut) : LadonPolicyOut :=
  match r with
  | .ok q => q
  | .error _ => d

/-- The templates of the entity rows of one kind linked to a policy id
through that kind's join table (GORM `Preload`). -/
def linkedTemplates (tab : List EntityRow) (rt : List RelRow) (pid : List Char) :
    List (List Char) :=
  (tab.filter (fun e =>
    rt.any (fun r => decide (r.policy = pid) && decide (r.entity = e.id)))).map
    (fun e => e.template)

/-- `convertPolicyToLadon`: the stored row with its preloaded template
lists. -/
def convertPolicyToLadon (q : PolicyRow) (st : DBState) : LadonPolicyOut :=
  ⟨q.id, q.description, q.effect,
   linkedTemplates st.subjects st.subjectRels q.id,
   linkedTemplates st.actions st.actionRels q.id,
   linkedTemplates st.resources st.resourceRels q.id,
   q.conditions, q.meta⟩

/-- `Get`: first non-soft-deleted policy row with the id, converted;
`NotFoundError` otherwise. -/
def getPolicy (id : List Char) (st : DBState) : Except GoErr LadonPolicyOut :=
  match st.policies.find? (fun q => decide (q.id = id) && !q.deleted) with
  | none => .error .notFound
  | some q => .ok (convertPolicyToLadon q st)

/-- The WHERE clause `buildRegexQuery` attaches per entity row (identical
shape for the postgres and mysql branches):
`(has_regex = true AND value ~ compiled) OR (has_regex = false AND template = value)`. -/
def entityMatchSQL (e : EntityRow) (v : List Char) : Bool :=
  (e.hasRegex && tildeMatch e.compiled v) || (!e.hasRegex && decide (e.template = v))

/-- The recognized driver names. -/
def validDriver (d : List Char) : Bool :=
  decide (d = str "postgres") || decide (d = str "pg") || decide (d = str "pgx")
    || decide (d = str "mysql")

/-- `FindPoliciesForResource` (GORM manager): join the policy table through
the resource join table to the resource entity table, filter with the
per-row match clause, distinct by policy row, convert.  An unrecognized
driver is rejected before the query runs. -/
def findPoliciesForResource (driver : List Char) (res : List Char) (st : DBState) :
    Except GoErr (List LadonPolicyOut) :=
  if !validDriver driver then .error .invalidDriver
  else
    .ok (((st.policies.filter (fun p => !p.deleted
        && st.resourceRels.any (fun r => decide (r.policy = p.id)
          && st.resources.any (fun e => decide (e.id = r.entity)
            && entityMatchSQL e res)))).map (fun q => convertPolicyToLadon q st)))

/-- `FindRequestCandidates` (GORM manager): the same query joined through
the subject join table, filtering on the request subject only. -/
def findRequestCandidates (driver : List Char) (subj : List Char) (st : DBState) :
    Except GoErr (List LadonPolicyOut) :=
  if !validDriver driver then .error .invalidDriver
  else
    .ok (((st.policies.filter (fun p => !p.deleted
        && st.subjectRels.any (fun r => decide (r.policy = p.id)
          && st.subjects.any (fun e => decide (e.id = r.entity)
            && entityMatchSQL e subj)))).map (fun q => convertPolicyToLadon q st)))

/-- The entity-row values bound by the stale statement-based write path
(`ladonmanager.go` `create`, lines 125-158) for one template: the id is the
SHA-256 hex of the *raw* template (that path never sanitizes), and the
`has_regex` parameter is the constant-true comparison
`strings.Index(...) >= -1`. -/
def legacyEntityRowFor (template : List Char) (sd ed : Char) :
    Except GoErr EntityRow :=
  match compileRegex template sd ed with
  | .error _ => .error .compileError
  | .ok c => .ok ⟨generateID template, template, c, legacyHasRegexValue template sd⟩

/-- Modelled from the spec: the SQL text of `Statements.QueryRequestCandidates`
is not under the repository sources (only `GetStatements` callers are).  Per
the spec's candidate-query contract it filters server-side on one request
field, and `FindRequestCandidates` (`ladonmanager.go:167`) passes
`r.Subject` for both placeholders, so the filtered field is the subject:
the query joins the policy table through the subject join table and applies
the literal-or-regex clause to the subject entities. -/
def legacyCandidateQuery (v : List Char) (st : DBState) : List PolicyRow :=
  st.policies.filter (fun p => !p.deleted
    && st.subjectRels.any (fun r => decide (r.policy = p.id)
      && st.subjects.any (fun e => decide (e.id = r.entity)
        && entityMatchSQL e v)))

/-- `FindPoliciesForSubject` of the stale statement-based manager
(`ladonmanager.go:291-302`): runs `QueryRequestCandidates` on the subject. -/
def legacyFindPoliciesForSubject (subject : List Char) (st : DBState) : List PolicyRow :=
  legacyCandidateQuery subject st

/-- `FindPoliciesForResource` of the stale statement-based manager
(`ladonmanager.go:305-314`): it too runs `QueryRequestCandidates`, passing
the resource string into the subject-matching candidate query. -/
def legacyFindPoliciesForResource (resource : List Char) (st : DBState) : List PolicyRow :=
  legacyCandidateQuery resource st

/-- The sanitized, non-empty survivors of a submitted template list: the
templates the write path actually stores. -/
def sanNE (items : List (List Char)) : List (List Char) :=
  (items.map sanitizeTemplate).filter (fun t => !decide (t = []))

theorem sanNE_nil : sanNE [] = [] := rfl

theorem sanNE_cons (t : List Char) (rest : List (List Char)) :
    sanNE (t :: rest) =
      if sanitizeTemplate t = [] then sanNE rest
      else sanitizeTemplate t :: sanNE rest := by
  by_cases h : sanitizeTemplate t = [] <;> simp [sanNE, h]

/-- Hash consistency of a stored entity table with respect to a set of
templates about to be written: a stored row whose id is the hash of one of
the templates stores that template, and the hash separates the templates
pairwise.  This is the (in practice unconditional) collision-freeness of
SHA-256 on the strings at hand, which the content-addressing scheme relies
on. -/
def HashOK (tab : List EntityRow) (ts : List (List Char)) : Prop :=
  (∀ e ∈ tab, ∀ t ∈ ts, e.id = generateID t → e.template = t)
    ∧ ∀ t1 ∈ ts, ∀ t2 ∈ ts, generateID t1 = generateID t2 → t1 = t2

/-- No relation row of a join table references the policy id. -/
def noRelsFor (rt : List RelRow) (pid : List Char) : Prop :=
  ∀ r ∈ rt, r.policy ≠ pid

theorem hashOK_anti (tab : List EntityRow) (ts ts' : List (List Char))
    (hsub : ∀ t ∈ ts', t ∈ ts) (h : HashOK tab ts) : HashOK tab ts' :=
  ⟨fun e he t ht => h.1 e he t (hsub t ht),
   fun t1 h1 t2 h2 => h.2 t1 (hsub t1 h1) t2 (hsub t2 h2)⟩

/-- Characterization of a successful entity loop: the final table extends
the initial one by rows for sanitized survivors only (each content-hashed),
and the collected relation rows are exactly the (policy, hash) pairs of the
sanitized survivors in order. -/
theorem entityPhase_ok_spec (sd ed : Char) (pid : List Char) :
    ∀ (items : List (List Char)) (tab tabF : List EntityRow) (rels : List RelRow),
      entityPhase sd ed pid items tab = .ok (tabF, rels) →
      (∀ e ∈ tabF, e ∈ tab ∨ (e.template ∈ sanNE items ∧ e.id = generateID e.template))
        ∧ (∀ e ∈ tab, e ∈ tabF)
        ∧ rels = (sanNE items).map (fun t => ⟨pid, generateID t⟩) := by
  intro items
  induction items with
  | nil =>
    intro tab tabF rels h
    simp only [entityPhase] at h
    cases h
    exact ⟨fun e he => Or.inl he, fun e he => he, by simp [sanNE_nil]⟩
  | cons t rest ih =>
    intro tab tabF rels h
    simp only [entityPhase] at h
    by_cases hE : sanitizeTemplate t = []
    · rw [if_pos hE] at h
      obtain ⟨h1, h2, h3⟩ := ih tab tabF rels h
      refine ⟨fun e he => ?_, h2, by rw [sanNE_cons, if_pos hE]; exact h3⟩
      rcases h1 e he with he' | ⟨hm, hid⟩
      · exact Or.inl he'
      · exact Or.inr ⟨by rw [sanNE_cons, if_pos hE]; exact hm, hid⟩
    · rw [if_neg hE] at h
      split at h
      · exact absurd h (by simp)
      · rename_i c hc
        split at h
        · exact absurd h (by simp)
        · rename_i tabF0 rels0 hr
          injection h with h'
          injection h' with hA hB
          subst hA
          subst hB
          obtain ⟨h1, h2, h3⟩ := ih _ tabF0 rels0 hr
          have hmemRow : ∀ e, e ∈ firstOrCreateEntity tab ⟨generateID (sanitizeTemplate t),
              sanitizeTemplate t, c, hasRegexOf (sanitizeTemplate t) sd⟩ →
              e ∈ tab ∨ (e.template ∈ sanNE (t :: rest) ∧ e.id = generateID e.template) := by
            intro e he
            unfold firstOrCreateEntity at he
            split at he
            · exact Or.inl he
            · rcases List.mem_append.mp he with he' | he'
              · exact Or.inl he'
              · rcases List.mem_singleton.mp he' with rfl
                exact Or.inr ⟨by rw [sanNE_cons, if_neg hE]; exact List.mem_cons_self _ _, rfl⟩
          have htabsub : ∀ e ∈ tab, e ∈ firstOrCreateEntity tab ⟨generateID (sanitizeTemplate t),
              sanitizeTemplate t, c, hasRegexOf (sanitizeTemplate t) sd⟩ := by
            intro e he
            unfold firstOrCreateEntity
            split
            · exact he
            · exact List.mem_append.mpr (Or.inl he)
          refine ⟨fun e he => ?_, fun e he => h2 e (htabsub e he), ?_⟩
          · rcases h1 e he with he' | ⟨hm, hid⟩
            · rcases hmemRow e he' with he'' | hnew
              · exact Or.inl he''
              · exact Or.inr hnew
            · exact Or.inr ⟨by rw [sanNE_cons, if_neg hE]; exact List.mem_cons_of_mem _ hm, hid⟩
          · rw [sanNE_cons, if_neg hE, List.map_cons, h3]

/-- Completeness of a successful entity loop: under hash consistency, every
sanitized survivor ends up represented by a row with its hash and its
template. -/
theorem entityPhase_complete (sd ed : Char) (pid : List Char) :
    ∀ (items : List (List Char)) (tab tabF : List EntityRow) (rels : List RelRow),
      entityPhase sd ed pid items tab = .ok (tabF, rels) →
      HashOK tab (sanNE items) →
      ∀ t ∈ sanNE items, ∃ e ∈ tabF, e.id = generateID t ∧ e.template = t := by
  intro items
  induction items with
  | nil =>
    intro tab tabF rels _ _ t ht
    rw [sanNE_nil] at ht
    exact absurd ht (List.not_mem_nil t)
  | cons t0 rest ih =>
    intro tab tabF rels h hh t ht
    simp only [entityPhase] at h
    by_cases hE : sanitizeTemplate t0 = []
    · rw [if_pos hE] at h
      rw [sanNE_cons, if_pos hE] at ht hh
      exact ih tab tabF rels h hh t ht
    · rw [if_neg hE] at h
      split at h
      · exact absurd h (by simp)
      · rename_i c hc
        set row : EntityRow := ⟨generateID (sanitizeTemplate t0), sanitizeTemplate t0, c,
          hasRegexOf (sanitizeTemplate t0) sd⟩ with hrow
        split at h
        · exact absurd h (by simp)
        · rename_i tabF0 rels0 hr
          injection h with h'
          injection h' with hA hB
          subst hA
          subst hB
          rw [sanNE_cons, if_neg hE] at ht hh
          have hmono := (entityPhase_ok_spec sd ed pid rest _ tabF0 rels0 hr).2.1
          have hh1 : HashOK (firstOrCreateEntity tab row) (sanNE rest) := by
            constructor
            · intro e he t1 ht1 hid
              unfold firstOrCreateEntity at he
              split at he
              · exact hh.1 e he t1 (List.mem_cons_of_mem _ ht1) hid
              · rcases List.mem_append.mp he with he' | he'
                · exact hh.1 e he' t1 (List.mem_cons_of_mem _ ht1) hid
                · rcases List.mem_singleton.mp he' with rfl
                  have : sanitizeTemplate t0 = t1 :=
                    hh.2 _ (List.mem_cons_self _ _) t1 (List.mem_cons_of_mem _ ht1) hid
                  simpa [hrow] using this
            · intro t1 h1 t2 h2
              exact hh.2 t1 (List.mem_cons_of_mem _ h1) t2 (List.mem_cons_of_mem _ h2)
          rcases List.mem_cons.mp ht with rfl | ht'
          · by_cases hex : tab.any (fun e => decide (e.id = row.id)) = true
            · obtain ⟨e, he, hide⟩ := List.any_eq_true.mp hex
              rw [decide_eq_true_eq] at hide
              have htmpl : e.template = sanitizeTemplate t0 :=
                hh.1 e he _ (List.mem_cons_self _ _) (by simpa [hrow] using hide)
              have hmem1 : e ∈ firstOrCreateEntity tab row := by
                unfold firstOrCreateEntity
                rw [if_pos hex]
                exact he
              exact ⟨e, hmono e hmem1, by simpa [hrow] using hide, htmpl⟩
            · have hmem1 : row ∈ firstOrCreateEntity tab row := by
                unfold firstOrCreateEntity
                rw [if_neg hex]
                exact List.mem_append.mpr (Or.inr (List.mem_singleton.mpr rfl))
              exact ⟨row, hmono row hmem1, rfl, rfl⟩
          · exact ih _ tabF0 rels0 hr hh1 t ht'

/-- Two relation rows agree iff their (policy, entity) pairs agree. -/
theorem relRow_eq_iff (x r : RelRow) :
    (x.policy = r.policy ∧ x.entity = r.entity) ↔ x = r := by
  cases x
  cases r
  simp [RelRow.mk.injEq]

/-- Membership after the relation batch phase: exactly the old rows and the
collected rows. -/
theorem mem_relPhase (newRels : List RelRow) :
    ∀ (rt : List RelRow) (r : RelRow),
      r ∈ relPhase newRels rt ↔ r ∈ rt ∨ r ∈ newRels := by
  induction newRels with
  | nil => intro rt r; simp [relPhase]
  | cons r0 rs ih =>
    intro rt r
    have hstep : relPhase (r0 :: rs) rt =
        relPhase rs (if rt.any (fun x => decide (x.policy = r0.policy)
          && decide (x.entity = r0.entity)) then rt else rt ++ [r0]) := by
      simp [relPhase]
    rw [hstep]
    by_cases hex : rt.any (fun x => decide (x.policy = r0.policy)
        && decide (x.entity = r0.entity)) = true
    · rw [if_pos hex, ih]
      obtain ⟨x, hx, hxe⟩ := List.any_eq_true.mp hex
      simp only [Bool.and_eq_true, decide_eq_true_eq] at hxe
      have hx0 : x = r0 := (relRow_eq_iff x r0).mp hxe
      subst hx0
      constructor
      · rintro (h | h)
        · exact Or.inl h
        · exact Or.inr (List.mem_cons_of_mem _ h)
      · rintro (h | h)
        · exact Or.inl h
        · rcases List.mem_cons.mp h with rfl | h'
          · exact Or.inl hx
          · exact Or.inr h'
    · rw [if_neg hex, ih]
      constructor
      · rintro (h | h)
        · rcases List.mem_append.mp h with h' | h'
          · exact Or.inl h'
          · exact Or.inr (by
              rcases List.mem_singleton.mp h' with rfl
              exact List.mem_cons_self _ _)
        · exact Or.inr (List.mem_cons_of_mem _ h)
      · rintro (h | h)
        · exact Or.inl (List.mem_append.mpr (Or.inl h))
        · rcases List.mem_cons.mp h with rfl | h'
          · exact Or.inl (List.mem_append.mpr (Or.inr (List.mem_singleton.mpr rfl)))
          · exact Or.inr h'

theorem find?_append_of_none {α : Type} (p : α → Bool) (l1 l2 : List α)
    (h : ∀ x ∈ l1, p x = false) : (l1 ++ l2).find? p = l2.find? p := by
  induction l1 with
  | nil => simp
  | cons a l ih =>
    rw [List.cons_append, List.find?]
    rw [h a (List.mem_cons_self _ _)]
    exact ih (fun x hx => h x (List.mem_cons_of_mem _ hx))

/-- Decomposition of a successful `create`: no physical policy row carried
the id, the policy row was appended, and each kind's tables are the result
of `processPolicyItems` on that kind. -/
theorem create_ok_spec (p : LadonPolicy) (st st' : DBState)
    (h : create p st = .ok st') :
    (∀ q ∈ st.policies, q.id ≠ p.id)
      ∧ st'.policies = st.policies ++ [mkPolicyRow p]
      ∧ processPolicyItems p.subjects p.id p.startDelim p.endDelim
          st.subjects st.subjectRels = .ok (st'.subjects, st'.subjectRels)
      ∧ processPolicyItems p.actions p.id p.startDelim p.endDelim
          st.actions st.actionRels = .ok (st'.actions, st'.actionRels)
      ∧ processPolicyItems p.resources p.id p.startDelim p.endDelim
          st.resources st.resourceRels = .ok (st'.resources, st'.resourceRels) := by
  unfold create at h
  split at h
  · exact absurd h (by simp)
  · split at h
    · exact absurd h (by simp)
    · split at h
      · exact absurd h (by simp)
      · split at h
        · exact absurd h (by simp)
        · rename_i hdup
          split at h
          · exact absurd h (by simp)
          · rename_i subs srels hsub
            split at h
            · exact absurd h (by simp)
            · rename_i acts arels hact
              split at h
              · exact absurd h (by simp)
              · rename_i ress rrels hres
                cases h
                refine ⟨?_, rfl, hsub, hact, hres⟩
                intro q hq
                have h0 : st.policies.any (fun q => decide (q.id = p.id)) = false := by
                  rw [← Bool.not_eq_true]
                  exact hdup
                have := List.any_eq_false.mp h0 q hq
                simpa using this

/-- Membership in the preloaded template list of a policy. -/
theorem mem_linkedTemplates (tab : List EntityRow) (rt : List RelRow)
    (pid t : List Char) :
    t ∈ linkedTemplates tab rt pid ↔
      ∃ e ∈ tab, (∃ r ∈ rt, r.policy = pid ∧ r.entity = e.id) ∧ e.template = t := by
  unfold linkedTemplates
  rw [List.mem_map]
  constructor
  · rintro ⟨e, he, rfl⟩
    obtain ⟨he1, he2⟩ := List.mem_filter.mp he
    obtain ⟨r, hr, hre⟩ := List.any_eq_true.mp he2
    simp only [Bool.and_eq_true, decide_eq_true_eq] at hre
    exact ⟨e, he1, ⟨r, hr, hre⟩, rfl⟩
  · rintro ⟨e, he, ⟨r, hr, hr1, hr2⟩, rfl⟩
    refine ⟨e, List.mem_filter.mpr ⟨he, ?_⟩, rfl⟩
    exact List.any_eq_true.mpr ⟨r, hr, by simp [hr1, hr2]⟩

/-- The round-trip content of one entity kind: after a successful
`processPolicyItems`, given hash consistency and no stray relation rows for
the policy id, the templates linked to the id are exactly the sanitized
non-empty submitted templates. -/
theorem processPolicyItems_roundtrip (items : List (List Char)) (pid : List Char)
    (sd ed : Char) (tab tabF : List EntityRow) (rt rtF : List RelRow)
    (hp : processPolicyItems items pid sd ed tab rt = .ok (tabF, rtF))
    (hno : noRelsFor rt pid) (hh : HashOK tab (sanNE items)) :
    ∀ t, t ∈ linkedTemplates tabF rtF pid ↔ t ∈ sanNE items := by
  unfold processPolicyItems at hp
  split at hp
  · exact absurd hp (by simp)
  · rename_i tab1 newRels hep
    injection hp with hp'
    injection hp' with hA hB
    subst hA
    subst hB
    obtain ⟨hchar, hmono, hrels⟩ := entityPhase_ok_spec sd ed pid items tab _ _ hep
    intro t
    rw [mem_linkedTemplates]
    constructor
    · rintro ⟨e, he, ⟨r, hr, hrp, hre⟩, rfl⟩
      rcases (mem_relPhase newRels rt r).mp hr with hold | hnew
      · exact absurd hrp (hno r hold)
      · rw [hrels] at hnew
        obtain ⟨t0, ht0, hr0⟩ := List.mem_map.mp hnew
        have hre0 : e.id = generateID t0 := by
          rw [← hre, ← hr0]
        rcases hchar e he with he' | ⟨hm, hid⟩
        · rw [hh.1 e he' t0 ht0 hre0]
          exact ht0
        · have : e.template = t0 := hh.2 e.template hm t0 ht0 (by rw [← hid, hre0])
          rw [this]
          exact ht0
    · intro ht
      obtain ⟨e, he, hid, htm⟩ := entityPhase_complete sd ed pid items tab _ _ hep hh t ht
      refine ⟨e, he, ⟨⟨pid, generateID t⟩, ?_, rfl, hid.symm⟩, htm⟩
      rw [mem_relPhase, hrels]
      exact Or.inr (List.mem_map.mpr ⟨t, ht, rfl⟩)

/-- After a successful `create` with hash-consistent entity tables and no
stray relation rows for the policy id, `Get` finds the freshly inserted
row, and each of its three preloaded template lists contains exactly the
sanitized non-empty submitted templates of that kind. -/
theorem create_get_spec (p : LadonPolicy) (st st' : DBState)
    (h : create p st = .ok st')
    (hnoS : noRelsFor st.subjectRels p.id)
    (hnoA : noRelsFor st.actionRels p.id)
    (hnoR : noRelsFor st.resourceRels p.id)
    (hhS : HashOK st.subjects (sanNE p.subjects))
    (hhA : HashOK st.actions (sanNE p.actions))
    (hhR : HashOK st.resources (sanNE p.resources)) :
    getPolicy p.id st' = .ok (convertPolicyToLadon (mkPolicyRow p) st')
      ∧ (∀ t, t ∈ linkedTemplates st'.subjects st'.subjectRels p.id ↔ t ∈ sanNE p.subjects)
      ∧ (∀ t, t ∈ linkedTemplates st'.actions st'.actionRels p.id ↔ t ∈ sanNE p.actions)
      ∧ (∀ t, t ∈ linkedTemplates st'.resources st'.resourceRels p.id ↔ t ∈ sanNE p.resources) := by
  obtain ⟨hfresh, hpol, hsub, hact, hres⟩ := create_ok_spec p st st' h
  refine ⟨?_, processPolicyItems_roundtrip _ _ _ _ _ _ _ _ hsub hnoS hhS,
    processPolicyItems_roundtrip _ _ _ _ _ _ _ _ hact hnoA hhA,
    processPolicyItems_roundtrip _ _ _ _ _ _ _ _ hres hnoR hhR⟩
  unfold getPolicy
  rw [hpol, find?_append_of_none]
  · simp [mkPolicyRow]
  · intro q hq
    simp [hfresh q hq]

theorem goIndexChar_ge_neg_one (t : List Char) (sd : Char) : -1 ≤ goIndexChar t sd := by
  induction t with
  | nil => simp [goIndexChar]
  | cons c rest ih =>
    simp only [goIndexChar]
    split
    · norm_num
    · split
      · norm_num
      · omega

/-- `strings.Index(t, string(sd)) >= 0` holds exactly when the character
occurs in the string. -/
theorem goIndexChar_nonneg_iff (t : List Char) (sd : Char) :
    0 ≤ goIndexChar t sd ↔ sd ∈ t := by
  induction t with
  | nil => simp [goIndexChar]
  | cons c rest ih =>
    simp only [goIndexChar, List.mem_cons]
    by_cases hc : c = sd
    · rw [if_pos hc]
      simp [hc]
    · rw [if_neg hc]
      split
      · rename_i hlt
        constructor
        · intro h
          omega
        · rintro (h | h)
          · exact absurd h.symm hc
          · have := ih.mpr h
            omega
      · rename_i hge
        constructor
        · intro _
          right
          exact ih.mp (by omega)
        · intro _
          omega

/-- The flag of the builder and of `processPolicyItems` is the presence of
the start delimiter in the (sanitized) template. -/
theorem hasRegexOf_iff_mem (t : List Char) (sd : Char) :
    hasRegexOf t sd = true ↔ sd ∈ t := by
  rw [hasRegexOf, decide_eq_true_eq]
  exact goIndexChar_nonneg_iff t sd

/-- The comparison `strings.Index(...) >= -1` of the stale write path is
vacuously true on every input. -/
theorem legacyHasRegexValue_always_true (t : List Char) (sd : Char) :
    legacyHasRegexValue t sd = true := by
  rw [legacyHasRegexValue, decide_eq_true_eq]
  exact goIndexChar_ge_neg_one t sd

/-- A literal subject entity storing the pattern `admin`, with the anchored
compiled form the write path produces for a literal. -/
def adminRow : EntityRow :=
  ⟨str "e1", str "admin", ⟨true, litChunk (str "admin"), true⟩, false⟩

/-- C1: for every raw pattern string stored by the write path, the stored
`HasRegex` flag is true iff the sanitized pattern contains the start
delimiter.  The builder and the GORM `processPolicyItems` satisfy this
(`hasRegexOf_iff_mem`), but the stale statement-based `create` of
`ladonmanager.go` binds `strings.Index(template, string(startDelim)) >= -1`,
which is true on every input: for the literal template `admin` with start
delimiter `<` it stores the flag `true`, although the sanitized pattern
contains no delimiter and the flag must be `false`. -/
theorem c1_hasregex_flag_bug :
    (∀ (t : List Char) (sd : Char), legacyHasRegexValue t sd = true)
      ∧ (legacyEntityRowFor (str "admin") '<' '>').map (fun e => e.hasRegex) = .ok true
      ∧ hasRegexOf (sanitizeTemplate (str "admin")) '<' = false
      ∧ ¬('<' ∈ sanitizeTemplate (str "admin")) := by
  refine ⟨legacyHasRegexValue_always_true, rfl, by decide, by decide⟩

/-- C2: for every stored entity row written by the write path (whose
compiled expression is anchored at both ends) and every request field: when
the pattern flag is false the SQL clause matches iff the stored raw
template equals the field exactly, and when the flag is true it matches iff
the compiled body matches the entire field — never a substring. -/
theorem c2_match_semantics (e : EntityRow) (v : List Char)
    (hS : e.compiled.anchorStart = true) (hE : e.compiled.anchorEnd = true) :
    (e.hasRegex = false → (entityMatchSQL e v = true ↔ e.template = v))
      ∧ (e.hasRegex = true → (entityMatchSQL e v = true ↔ rmatch e.compiled.body v = true)) := by
  obtain ⟨eid, etm, ⟨aS, body, aE⟩, hflag⟩ := e
  simp only at hS hE
  subst hS
  subst hE
  constructor
  · intro hf
    simp only at hf
    subst hf
    simp [entityMatchSQL]
  · intro ht
    simp only at ht
    subst ht
    simp [entityMatchSQL, tildeMatch_anchored]

/-- Witness for C2: the literal entity `admin` does not match the request
field `administrator`, and does match `admin` exactly. -/
theorem c2_match_semantics_witness :
    adminRow.compiled.anchorStart = true ∧ adminRow.compiled.anchorEnd = true
      ∧ adminRow.hasRegex = false
      ∧ entityMatchSQL adminRow (str "administrator") = false
      ∧ entityMatchSQL adminRow (str "admin") = true := by
  refine ⟨rfl, rfl, rfl, ?_, ?_⟩
  · have h := (c2_match_semantics adminRow (str "administrator") rfl rfl).1 rfl
    cases hB : entityMatchSQL adminRow (str "administrator") with
    | false => rfl
    | true => exact absurd (h.mp hB) (by decide)
  · exact ((c2_match_semantics adminRow (str "admin") rfl rfl).1 rfl).mpr (by decide)

/-- The first policy of the C4 scenario: `p1` with subject `alice`. -/
def polC4a : LadonPolicy :=
  ⟨str "p1", str "d", str "allow", [str "alice"], [], [], str "{}", str "{}", '<', '>'⟩

/-- The updated version of `p1`: subject `bob` instead of `alice`. -/
def polC4b : LadonPolicy :=
  ⟨str "p1", str "d", str "allow", [str "bob"], [], [], str "{}", str "{}", '<', '>'⟩

/-- C4: `Update` is literally `delete` followed by `create` in one
transaction, but because `models.Policy` embeds `gorm.DeletedAt`, the
delete step only soft-deletes the policy row: the row keeps occupying the
primary key, the subsequent insert of the recreated policy collides with
it, and updating any existing policy fails with a duplicate-key storage
error instead of replacing the policy — `get` after a successful update of
an existing policy is unreachable. -/
theorem c4_update_softdelete_bug :
    (∀ (p : LadonPolicy) (st : DBState), update p st = create p (deletePolicy p.id st))
      ∧ (okOr emptyDB (create polC4a emptyDB)).policies.length = 1
      ∧ update polC4b (okOr emptyDB (create polC4a emptyDB)) = .error .duplicateKey := by
  exact ⟨fun p st => rfl, rfl, rfl⟩

/-- The C8 scenario policy: `p1` with subject `user`. -/
def polC8 : LadonPolicy :=
  ⟨str "p1", str "d", str "allow", [str "user"], [], [], str "{}", str "{}", '<', '>'⟩

/-- The store after creating the C8 policy. -/
def stC8 : DBState := okOr emptyDB (create polC8 emptyDB)

/-- C8: after `Delete(p1)`, `Get(p1)` does return the not-found error, but
the relation row referencing `p1` remains in the policy-subject join
table: the policy row is only soft-deleted (`gorm.DeletedAt`), so the
`ON DELETE CASCADE` constraints of the join tables never fire. -/
theorem c8_delete_cascade_bug :
    stC8.subjectRels.length = 1
      ∧ getPolicy (str "p1") (deletePolicy (str "p1") stC8) = .error .notFound
      ∧ (deletePolicy (str "p1") stC8).subjectRels = stC8.subjectRels
      ∧ (deletePolicy (str "p1") stC8).subjectRels.any
          (fun r => decide (r.policy = str "p1")) = true := by
  exact ⟨rfl, rfl, rfl, rfl⟩

/-- Policy `A`, referencing the already-sanitized subject pattern. -/
def polC3A : LadonPolicy :=
  ⟨str "A", str "d", str "allow", [str "user"], [], [], str "{}", str "{}", '<', '>'⟩

/-- Policy `B`, referencing the same pattern surrounded by whitespace. -/
def polC3B : LadonPolicy :=
  ⟨str "B", str "d", str "allow", [str " user "], [], [], str "{}", str "{}", '<', '>'⟩

/-- The number of subject entity rows stored after a write sequence. -/
def subjectCount (r : Except GoErr DBState) : Nat :=
  match r with
  | .ok st => st.subjects.length
  | .error _ => 0

set_option maxRecDepth 2000000 in
/-- C3: patterns equal after sanitization get the same content-addressed
identifier, and two policies referencing them collapse to one entity row —
this holds on the GORM write path, which hashes the sanitized template.
The stale statement-based `create` of `ladonmanager.go` (lines 125-128)
hashes the *raw* template without any sanitization, so the
sanitization-equal patterns `" user "` and `"user"` get two different
identifiers there (and hence two entity rows under the id-keyed upsert),
violating the claim on that path. -/
theorem c3_identity_dedup_bug :
    sanitizeTemplate (str " user ") = sanitizeTemplate (str "user")
      ∧ generateID (sanitizeTemplate (str " user "))
          = generateID (sanitizeTemplate (str "user"))
      ∧ (legacyEntityRowFor (str " user ") '<' '>').map (fun e => e.id)
          = .ok (generateID (str " user "))
      ∧ generateID (str " user ") ≠ generateID (str "user")
      ∧ subjectCount ((create polC3A emptyDB).bind (fun st => create polC3B st)) = 1 := by
  refine ⟨by decide,
    by rw [show sanitizeTemplate (str " user ") = sanitizeTemplate (str "user") from by decide],
    rfl, by decide, rfl⟩

/-- The C5 counterexample policy: its submitted subject carries leading
whitespace. -/
def polC5pad : LadonPolicy :=
  ⟨str "p", str "d", str "allow", [str " user"], [], [], str "{}", str "{}", '<', '>'⟩

/-- A default policy value for reading off successful results. -/
def dummyOut : LadonPolicyOut := ⟨[], [], [], [], [], [], [], []⟩

/-- The store after creating the padded policy. -/
def stC5pad : DBState := okOr emptyDB (create polC5pad emptyDB)

set_option maxRecDepth 2000000 in
/-- C5 counterexample: `create` sanitizes templates, so the policy
submitted with subject `" user"` reads back with subject list `["user"]`:
the returned set does not equal the originally submitted set. -/
theorem c5_roundtrip_counterexample :
    (str " user") ∈ polC5pad.subjects
      ∧ create polC5pad emptyDB = .ok stC5pad
      ∧ (okOrP dummyOut (getPolicy (str "p") stC5pad)).subjects = [str "user"]
      ∧ ¬((str " user") ∈ (okOrP dummyOut (getPolicy (str "p") stC5pad)).subjects) := by
  refine ⟨by decide, rfl, rfl, by decide⟩

/-- C5 (amended): for every policy accepted by `create`, reading it back
returns template lists that are equal — order-insensitively and with
duplicates collapsed — to the *sanitized* submitted lists with entries
empty after sanitization dropped, under hash consistency of the prior
entity tables and no stray relation rows for the policy id. -/
theorem c5_roundtrip_sanitized (p : LadonPolicy) (st st' : DBState)
    (h : create p st = .ok st')
    (hnoS : noRelsFor st.subjectRels p.id)
    (hnoA : noRelsFor st.actionRels p.id)
    (hnoR : noRelsFor st.resourceRels p.id)
    (hhS : HashOK st.subjects (sanNE p.subjects))
    (hhA : HashOK st.actions (sanNE p.actions))
    (hhR : HashOK st.resources (sanNE p.resources)) :
    getPolicy p.id st' = .ok (convertPolicyToLadon (mkPolicyRow p) st')
      ∧ (∀ t, t ∈ (convertPolicyToLadon (mkPolicyRow p) st').subjects ↔ t ∈ sanNE p.subjects)
      ∧ (∀ t, t ∈ (convertPolicyToLadon (mkPolicyRow p) st').actions ↔ t ∈ sanNE p.actions)
      ∧ (∀ t, t ∈ (convertPolicyToLadon (mkPolicyRow p) st').resources ↔ t ∈ sanNE p.resources) :=
  create_get_spec p st st' h hnoS hnoA hnoR hhS hhA hhR

/-- The C5 witness policy with one template of each kind. -/
def polC5w : LadonPolicy :=
  ⟨str "w", str "d", str "allow", [str "user"], [str "read"], [str "doc"],
   str "{}", str "{}", '<', '>'⟩

/-- The store after creating the witness policy. -/
def stC5w : DBState := okOr emptyDB (create polC5w emptyDB)

theorem noRelsFor_nil (pid : List Char) : noRelsFor [] pid :=
  fun r hr => absurd hr (List.not_mem_nil r)

theorem hashOK_nil_of_single (ts : List (List Char)) (u : List Char)
    (hts : ts = [u]) : HashOK [] ts := by
  subst hts
  refine ⟨by simp, ?_⟩
  intro t1 h1 t2 h2 _
  rw [List.mem_singleton] at h1 h2
  rw [h1, h2]

/-- Witness for the amended C5 on a concrete policy in the empty store. -/
theorem c5_roundtrip_sanitized_witness :
    create polC5w emptyDB = .ok stC5w
      ∧ (str "user") ∈ (convertPolicyToLadon (mkPolicyRow polC5w) stC5w).subjects := by
  have hok : create polC5w emptyDB = .ok stC5w := rfl
  have h := c5_roundtrip_sanitized polC5w emptyDB stC5w hok
    (noRelsFor_nil _) (noRelsFor_nil _) (noRelsFor_nil _)
    (hashOK_nil_of_single _ (str "user") (by decide))
    (hashOK_nil_of_single _ (str "read") (by decide))
    (hashOK_nil_of_single _ (str "doc") (by decide))
  exact ⟨hok, (h.2.1 (str "user")).mpr (by decide)⟩

/-- A literal subject entity `user` of the C6 store. -/
def subjUserRow : EntityRow :=
  ⟨str "s1", str "user", ⟨true, litChunk (str "user"), true⟩, false⟩

/-- A pattern resource entity `file:<.*>` of the C6 store. -/
def resFileRow : EntityRow :=
  ⟨str "r1", str "file:<.*>", ⟨true, .cat (litChunk (str "file:")) (.star .dot), true⟩, true⟩

/-- The C6 policy row. -/
def polRowC6 : PolicyRow := ⟨str "p1", str "d", str "allow", str "{}", str "{}", false⟩

/-- The C6 store: policy `p1` with subject `user` and resource
`file:<.*>`. -/
def stC6 : DBState :=
  ⟨[polRowC6], [subjUserRow], [], [resFileRow],
   [⟨str "p1", str "s1"⟩], [], [⟨str "p1", str "r1"⟩]⟩

/-- C6: the GORM `FindPoliciesForResource` returns exactly the policies
with a matching Resource entity (via the resource join), but the stale
statement-based `FindPoliciesForResource` forwards the resource string to
`QueryRequestCandidates` — the subject-matching candidate query also used
by `FindPoliciesForSubject` — so on a store where `p1` has the matching
resource entity `file:<.*>` and subject `user`, it returns nothing for the
request resource `file:doc` while the GORM implementation returns `p1`. -/
theorem c6_find_for_resource_bug :
    (∀ (v : List Char) (st : DBState),
        legacyFindPoliciesForResource v st = legacyFindPoliciesForSubject v st)
      ∧ entityMatchSQL resFileRow (str "file:doc") = true
      ∧ legacyFindPoliciesForResource (str "file:doc") stC6 = []
      ∧ findPoliciesForResource (str "postgres") (str "file:doc") stC6
          = .ok [convertPolicyToLadon polRowC6 stC6] := by
  exact ⟨fun v st => rfl, rfl, rfl, rfl⟩

/-- C7: a policy with an empty identifier, an over-long identifier, or an
effect other than `allow`/`deny` makes `create` fail with a typed
validation error before anything is written, and the transaction leaves
the store unchanged. -/
theorem c7_validation_fail_fast (p : LadonPolicy) (st : DBState)
    (h : p.id = [] ∨ 255 < goLen p.id
      ∨ (p.effect ≠ str "allow" ∧ p.effect ≠ str "deny")) :
    (∃ e, create p st = .error e) ∧ okOr st (create p st) = st := by
  have herr : ∃ e, create p st = .error e := by
    by_cases h0 : p.id = []
    · exact ⟨.emptyPolicyID, by simp [create, h0]⟩
    · by_cases h1 : 255 < goLen p.id
      · exact ⟨.policyIDTooLong, by simp [create, h0, h1]⟩
      · rcases h with h | h | h
        · exact absurd h h0
        · exact absurd h h1
        · by_cases h2 : p.description = []
          · exact ⟨.emptyDescription,
              by simp [create, policyValidate, mkPolicyRow, h0, h1, h2]⟩
          · exact ⟨.invalidEffect,
              by simp [create, policyValidate, mkPolicyRow, h0, h1, h2, h]⟩
  refine ⟨herr, ?_⟩
  obtain ⟨e, he⟩ := herr
  rw [he]
  rfl

/-- A policy whose effect is neither `allow` nor `deny`. -/
def polC7 : LadonPolicy :=
  ⟨str "p", str "d", str "maybe", [], [], [], str "{}", str "{}", '<', '>'⟩

/-- Witness for C7: the invalid effect `maybe` is rejected and nothing is
persisted. -/
theorem c7_validation_fail_fast_witness :
    (polC7.effect ≠ str "allow" ∧ polC7.effect ≠ str "deny")
      ∧ create polC7 emptyDB = .error .invalidEffect
      ∧ okOr emptyDB (create polC7 emptyDB) = emptyDB := by
  have hd : polC7.id = [] ∨ 255 < goLen polC7.id
      ∨ (polC7.effect ≠ str "allow" ∧ polC7.effect ≠ str "deny") :=
    Or.inr (Or.inr ⟨by decide, by decide⟩)
  exact ⟨⟨by decide, by decide⟩, rfl, (c7_validation_fail_fast polC7 emptyDB hd).2⟩

/-- C9: template compilation first trims surrounding whitespace — the
builder's `WithTemplate` stores exactly the sanitized template — and a
template that is empty after sanitization is rejected with the
empty-template error by the standard builder pipeline. -/
theorem c9_empty_template_rejected (t : List Char) (sd ed : Char) :
    (withTemplate newEntityBuilder t).template = sanitizeTemplate t
      ∧ (sanitizeTemplate t = [] →
          buildStandardEntity t sd ed = .error .emptyTemplate) := by
  constructor
  · by_cases h : sanitizeTemplate t = [] <;>
      simp [withTemplate, newEntityBuilder, h]
  · intro h
    simp [buildStandardEntity, withTemplate, newEntityBuilder, h,
      withDelimiters, generateIDStep, compileTemplateStep, build]

/-- Witness for C9: an all-whitespace template is rejected. -/
theorem c9_empty_template_rejected_witness :
    sanitizeTemplate (str "   ") = []
      ∧ buildStandardEntity (str "   ") '<' '>' = .error .emptyTemplate := by
  refine ⟨by decide, (c9_empty_template_rejected (str "   ") '<' '>').2 (by decide)⟩

/-- C10: a template that is empty after sanitization is silently skipped by
`processPolicyItems`: processing it at the head of the list is the same as
not submitting it at all, so no entity or relation row is written for it,
and `create` of a policy listing it among its subjects, actions or
resources is observably identical to `create` of the policy without it. -/
theorem c10_empty_template_skipped (t : List Char) (h : sanitizeTemplate t = []) :
    (∀ (items : List (List Char)) (pid : List Char) (sd ed : Char)
        (tab : List EntityRow) (rt : List RelRow),
        processPolicyItems (t :: items) pid sd ed tab rt
          = processPolicyItems items pid sd ed tab rt)
      ∧ (∀ (pid desc eff : List Char) (subs acts ress : List (List Char))
          (cond mta : List Char) (sd ed : Char) (st : DBState),
          create ⟨pid, desc, eff, t :: subs, acts, ress, cond, mta, sd, ed⟩ st
            = create ⟨pid, desc, eff, subs, acts, ress, cond, mta, sd, ed⟩ st
          ∧ create ⟨pid, desc, eff, subs, t :: acts, ress, cond, mta, sd, ed⟩ st
            = create ⟨pid, desc, eff, subs, acts, ress, cond, mta, sd, ed⟩ st
          ∧ create ⟨pid, desc, eff, subs, acts, t :: ress, cond, mta, sd, ed⟩ st
            = create ⟨pid, desc, eff, subs, acts, ress, cond, mta, sd, ed⟩ st) := by
  have hep : ∀ (items : List (List Char)) (pid : List Char) (sd ed : Char)
      (tab : List EntityRow),
      entityPhase sd ed pid (t :: items) tab = entityPhase sd ed pid items tab := by
    intro items pid sd ed tab
    simp [entityPhase, h]
  have hpp : ∀ (items : List (List Char)) (pid : List Char) (sd ed : Char)
      (tab : List EntityRow) (rt : List RelRow),
      processPolicyItems (t :: items) pid sd ed tab rt
        = processPolicyItems items pid sd ed tab rt := by
    intro items pid sd ed tab rt
    unfold processPolicyItems
    rw [hep]
  refine ⟨hpp, ?_⟩
  intro pid desc eff subs acts ress cond mta sd ed st
  refine ⟨?_, ?_, ?_⟩ <;> simp only [create, mkPolicyRow, hpp]

/-- Witness for C10: an all-whitespace subject is skipped and the create
result coincides with the create of the policy without it. -/
theorem c10_empty_template_skipped_witness :
    sanitizeTemplate (str " ") = []
      ∧ create ⟨str "p", str "d", str "allow", str " " :: [str "user"], [], [],
          str "{}", str "{}", '<', '>'⟩ emptyDB
        = create ⟨str "p", str "d", str "allow", [str "user"], [], [],
            str "{}", str "{}", '<', '>'⟩ emptyDB := by
  have h : sanitizeTemplate (str " ") = [] := by decide
  exact ⟨h, ((c10_empty_template_skipped (str " ") h).2 (str "p") (str "d")
    (str "allow") [str "user"] [] [] (str "{}") (str "{}") '<' '>' emptyDB).1⟩

end LadonSql
